import Mathlib

set_option maxRecDepth 8000

namespace HardcoreAI

/-!
Shallow embedding of the pin-resolution subsystem of the HardcoreAIApp
backend: `hal_adapter.py` (IntelligentHAL), `board_pinouts.py`
(get_board_pinout) and `pin_mapper.py` (IntelligentPinMapper).
Python dicts are embedded as insertion-ordered association lists, Python
sets as lists queried only through membership, and the two regular
expressions used by the code (digit-run extraction and the
`for (word+)` component capture) as explicit character-list scans.
-/

/-- ASCII model of the regex word class used by the auto-fix component
capture in `hal_adapter._auto_fix`. -/
def isWordChar (c : Char) : Bool := c.isAlphanum || c == '_'

/-- First maximal run of digits of a character list: the match of the
digit-run regex search in `hal_adapter._parse_pin_number`. -/
def firstDigitRun : List Char → Option (List Char)
  | [] => none
  | c :: cs => if c.isDigit then some (c :: cs.takeWhile Char.isDigit) else firstDigitRun cs

/-- Numeric value of a digit run, as Python `int` of the matched text. -/
def digitsToNat (ds : List Char) : Nat := ds.foldl (fun acc c => acc * 10 + (c.toNat - 48)) 0

/-- `hal_adapter._parse_pin_number`: first digit run of the string, else 0. -/
def parse_pin_number (s : String) : Nat :=
  match firstDigitRun s.data with
  | some ds => digitsToNat ds
  | none => 0

/-- Substring containment on character lists (Python `needle in hay`). -/
def containsSub (needle : List Char) : List Char → Bool
  | [] => decide (needle = [])
  | c :: t => needle.isPrefixOf (c :: t) || containsSub needle t

/-- Python substring test `needle in hay` on strings. -/
def strContains (hay needle : String) : Bool := containsSub needle.data hay.data

/-- Attempted match of the component-capture regex at the current position:
literal `for` and a space followed by at least one word character; the
capture is the maximal word-character run. -/
def forMatchAt : List Char → Option (List Char)
  | 'f' :: 'o' :: 'r' :: ' ' :: w :: rest =>
      if isWordChar w then some (w :: rest.takeWhile isWordChar) else none
  | _ => none

/-- Leftmost search of the component-capture regex used by
`hal_adapter._auto_fix` on an issue message. -/
def forCapture : List Char → Option String
  | [] => none
  | c :: t =>
    match forMatchAt (c :: t) with
    | some w => some (String.mk w)
    | none => forCapture t

/-- Python `str.lower` restricted to the ASCII strings the catalog uses. -/
def toLowerStr (s : String) : String := String.mk (s.data.map Char.toLower)

/-- Python `str.strip` (ASCII whitespace), on the character list. -/
def trimChars (l : List Char) : List Char :=
  ((l.dropWhile Char.isWhitespace).reverse.dropWhile Char.isWhitespace).reverse

/-- Python `str.strip` on strings. -/
def pyStrip (s : String) : String := String.mk (trimChars s.data)

/-- Python `repr` of a list of ints, as interpolated into suggested fixes. -/
def pyReprList (l : List Nat) : String :=
  "[" ++ String.intercalate ", " (l.map toString) ++ "]"

/-- `hal_adapter.ValidationIssue`. -/
structure ValidationIssue where
  type : String
  severity : String
  message : String
  suggested_fix : Option String := none
deriving DecidableEq, Repr

/-- One board entry of `hal_adapter.IntelligentHAL.BOARD_SPECS`. -/
structure BoardSpec where
  available_gpio : List Nat
  pwm_capable : List Nat
  adc_capable : List Nat
  i2c_sda : Nat
  i2c_scl : Nat
  reserved : List Nat
  default_led : Nat
deriving DecidableEq, Repr

/-- `BOARD_SPECS["esp32"]`. -/
def esp32_spec : BoardSpec where
  available_gpio := List.range 40
  pwm_capable := [2, 4, 5, 12, 13, 14, 15, 16, 17, 18, 19, 21, 22, 23, 25, 26, 27, 32, 33]
  adc_capable := [32, 33, 34, 35, 36, 39]
  i2c_sda := 21
  i2c_scl := 22
  reserved := [0, 1, 6, 7, 8, 9, 10, 11]
  default_led := 2

/-- `BOARD_SPECS["arduino_nano"]`. -/
def arduino_nano_spec : BoardSpec where
  available_gpio := [2, 3, 4, 5, 6, 7, 8, 9, 10, 11, 12, 13]
  pwm_capable := [3, 5, 6, 9, 10, 11]
  adc_capable := [14, 15, 16, 17, 18, 19]
  i2c_sda := 18
  i2c_scl := 19
  reserved := [0, 1]
  default_led := 13

/-- `BOARD_SPECS["arduino_uno"]`. -/
def arduino_uno_spec : BoardSpec where
  available_gpio := [2, 3, 4, 5, 6, 7, 8, 9, 10, 11, 12, 13]
  pwm_capable := [3, 5, 6, 9, 10, 11]
  adc_capable := [14, 15, 16, 17, 18, 19]
  i2c_sda := 18
  i2c_scl := 19
  reserved := [0, 1]
  default_led := 13

/-- `BOARD_SPECS.get(board_type, BOARD_SPECS["esp32"])` as performed by
`IntelligentHAL.__init__`. -/
def board_specs_get (board_type : String) : BoardSpec :=
  if board_type = "esp32" then esp32_spec
  else if board_type = "arduino_nano" then arduino_nano_spec
  else if board_type = "arduino_uno" then arduino_uno_spec
  else esp32_spec

/-- One element of a connection's `pins` list, after the `.get` defaulting
done by `validate_and_resolve` (`mcu_pin` already passed through `str`). -/
structure PinEntry where
  mcu_pin : String
  ptype : String
deriving DecidableEq, Repr

/-- One element of the input's `connections` list. -/
structure Connection where
  component : String
  pins : List PinEntry
deriving DecidableEq, Repr

/-- Python dict update `d[k] = v`: updates in place when the key exists,
otherwise appends, preserving insertion order. -/
def dictSet (d : List (String × Nat)) (k : String) (v : Nat) : List (String × Nat) :=
  if d.any (fun p => decide (p.1 = k)) then d.map (fun p => if p.1 = k then (k, v) else p)
  else d ++ [(k, v)]

/-- `hal_adapter._validate_pin`. -/
def validate_pin (spec : BoardSpec) (board_type : String) (pin : Nat)
    (pin_type component : String) : List ValidationIssue :=
  if pin ∉ spec.available_gpio then
    [{ type := "invalid_pin"
       severity := "critical"
       message := "Pin " ++ toString pin ++ " not available on " ++ board_type
       suggested_fix := some ("Use pin from: " ++ pyReprList (spec.available_gpio.take 5)) }]
  else
    (if pin ∈ spec.reserved then
      [{ type := "reserved_pin"
         severity := "warning"
         message := "Pin " ++ toString pin ++ " is reserved (boot/flash)"
         suggested_fix := some "Use different pin if possible" }]
     else []) ++
    (if pin_type = "PWM" ∧ pin ∉ spec.pwm_capable then
      [{ type := "wrong_capability"
         severity := "critical"
         message := "Pin " ++ toString pin ++ " not PWM-capable for " ++ component
         suggested_fix := some ("Use PWM pin: " ++ pyReprList (spec.pwm_capable.take 3)) }]
     else []) ++
    (if pin_type = "ADC" ∧ pin ∉ spec.adc_capable then
      [{ type := "wrong_capability"
         severity := "critical"
         message := "Pin " ++ toString pin ++ " not ADC-capable for " ++ component
         suggested_fix := some ("Use ADC pin: " ++ pyReprList (spec.adc_capable.take 3)) }]
     else []) ++ []

/-- The duplicate-use issue appended by the conflict check of
`validate_and_resolve`. -/
def conflict_issue (pin : Nat) : ValidationIssue where
  type := "conflict"
  severity := "critical"
  message := "Pin " ++ toString pin ++ " used by multiple components"
  suggested_fix := some "Reassign one component to different pin"

/-- Loop state of the validation pass of `validate_and_resolve`. -/
structure PassState where
  issues : List ValidationIssue
  resolved : List (String × Nat)
  used_pins : List Nat
deriving DecidableEq, Repr

/-- Body of the inner loop of `validate_and_resolve` for one pin entry. -/
def process_entry (spec : BoardSpec) (board_type : String) (st : PassState)
    (component : String) (e : PinEntry) : PassState :=
  let mcu_pin := parse_pin_number e.mcu_pin
  let pin_issues := validate_pin spec board_type mcu_pin e.ptype component
  let issues1 := st.issues ++ pin_issues
  let issues2 := if mcu_pin ∈ st.used_pins then issues1 ++ [conflict_issue mcu_pin] else issues1
  { issues := issues2
    resolved := dictSet st.resolved component mcu_pin
    used_pins := st.used_pins ++ [mcu_pin] }

/-- The validation loop of `validate_and_resolve` (everything before the
auto-fix call), run from an arbitrary starting state. -/
def base_pass_from (spec : BoardSpec) (board_type : String) (st : PassState)
    (conns : List Connection) : PassState :=
  conns.foldl (fun st conn =>
    conn.pins.foldl (fun s e => process_entry spec board_type s conn.component e) st) st

/-- The validation loop of `validate_and_resolve` from the empty state. -/
def base_pass (spec : BoardSpec) (board_type : String) (conns : List Connection) : PassState :=
  base_pass_from spec board_type ⟨[], [], []⟩ conns

/-- Loop state of `hal_adapter._auto_fix`. -/
structure FixState where
  fixed_resolved : List (String × Nat)
  used_pins : List Nat
  remaining : List ValidationIssue
deriving DecidableEq, Repr

/-- Body of the issue loop of `hal_adapter._auto_fix` for one issue. -/
def fix_issue (spec : BoardSpec) (st : FixState) (issue : ValidationIssue) : FixState :=
  if issue.severity ≠ "critical" then { st with remaining := st.remaining ++ [issue] }
  else if issue.type = "wrong_capability" then
    match forCapture issue.message.data with
    | some component =>
        if strContains issue.message "PWM" then
          match spec.pwm_capable.find? (fun p => !(decide (p ∈ st.used_pins))) with
          | some p =>
              { st with fixed_resolved := dictSet st.fixed_resolved component p
                        used_pins := st.used_pins ++ [p] }
          | none => st
        else if strContains issue.message "ADC" then
          match spec.adc_capable.find? (fun p => !(decide (p ∈ st.used_pins))) with
          | some p =>
              { st with fixed_resolved := dictSet st.fixed_resolved component p
                        used_pins := st.used_pins ++ [p] }
          | none => st
        else st
    | none => st
  else if issue.type = "invalid_pin" then
    { st with remaining := st.remaining ++
        [{ type := "auto_fixed", severity := "warning"
           message := "Auto-fixed: " ++ issue.message, suggested_fix := none }] }
  else st

/-- `hal_adapter._auto_fix`. -/
def auto_fix (spec : BoardSpec) (resolved : List (String × Nat))
    (issues : List ValidationIssue) : (List (String × Nat)) × List ValidationIssue :=
  let fin := issues.foldl (fix_issue spec) ⟨resolved, resolved.map Prod.snd, []⟩
  (fin.fixed_resolved, fin.remaining)

/-- `hal_adapter.IntelligentHAL.validate_and_resolve` for a HAL constructed
with the given board type. -/
def validate_and_resolve (board_type : String) (conns : List Connection) :
    (List (String × Nat)) × List ValidationIssue :=
  let spec := board_specs_get board_type
  let st := base_pass spec board_type conns
  if st.issues.any (fun i => i.severity == "critical") then
    auto_fix spec st.resolved st.issues
  else (st.resolved, st.issues)

/-- Result shape of `board_pinouts.get_board_pinout`: either one of the
registered pinout entries (identified by its dict key) or the generic
fallback dict carrying the requested name and a pin range. -/
inductive BoardPinout where
  | registered (key : String)
  | generic (name : String) (pins : List Nat)
deriving DecidableEq, Repr

/-- Keys of `board_pinouts.BOARD_PINOUTS`, in insertion order. -/
def pinout_keys : List String := ["ESP32", "Arduino Nano", "Arduino Uno", "Arduino Mega", "ESP8266"]

/-- `board_pinouts.get_board_pinout`: direct match, then fuzzy lowercase
containment either way, then the generic 0..31 fallback. -/
def get_board_pinout (board_type : String) : BoardPinout :=
  let b := pyStrip board_type
  if b ∈ pinout_keys then .registered b
  else
    match pinout_keys.find? (fun key =>
        strContains (toLowerStr key) (toLowerStr b) || strContains (toLowerStr b) (toLowerStr key)) with
    | some key => .registered key
    | none => .generic b (List.range 32)

/-- `pin_mapper.IntelligentPinMapper.pin_usage`: dict from pin to the
peripheral type using it. -/
abbrev PinUsage := List (Nat × String)

/-- Python `pin in self.pin_usage`. -/
def usageHas (u : PinUsage) (p : Nat) : Bool := u.any (fun q => q.1 == p)

/-- Python `self.pin_usage[pin] = peripheral`. -/
def usageSet (u : PinUsage) (p : Nat) (s : String) : PinUsage :=
  if usageHas u p then u.map (fun q => if q.1 == p then (p, s) else q) else u ++ [(p, s)]

/-- Defaults table of `pin_mapper._find_best_gpio`. -/
def gpio_defaults (board : String) : List Nat :=
  if board = "esp32" then [2, 4, 5, 18, 19, 21, 22, 23]
  else if board = "arduino_uno" then [2, 3, 4, 5, 6, 7, 8, 9, 10, 11, 12, 13]
  else if board = "arduino_mega" then [2, 3, 4, 5, 6, 7, 8, 9, 10, 11, 12, 13]
  else if board = "stm32" then [0, 1, 2, 3, 4, 5]
  else [2]

/-- `pin_mapper._find_best_gpio` (its `board_pins` argument is unused by the
source). The defaults tables are all non-empty, so the `headD` fallback
models Python `available_pins[0]`. -/
def find_best_gpio (usage : PinUsage) (board : String) : Nat :=
  let avail := gpio_defaults board
  match avail.find? (fun p => !(usageHas usage p)) with
  | some p => p
  | none => avail.headD 0

/-- Defaults table of `pin_mapper._find_pwm_pin`. -/
def pwm_defaults (board : String) : List Nat :=
  if board = "esp32" then [2, 4, 5, 12, 13, 14, 15, 16, 17, 18, 19, 21, 22, 23]
  else if board = "arduino_uno" then [3, 5, 6, 9, 10, 11]
  else if board = "arduino_mega" then [2, 3, 4, 5, 6, 7, 8, 9, 10, 11, 12, 13]
  else if board = "stm32" then [0, 1, 2, 3]
  else [13]

/-- `pin_mapper._find_pwm_pin`. -/
def find_pwm_pin (usage : PinUsage) (board : String) : Nat :=
  let avail := pwm_defaults board
  match avail.find? (fun p => !(usageHas usage p)) with
  | some p => p
  | none => avail.headD 0

/-- `pin_mapper._find_i2c_pins`. -/
def i2c_defaults_for (board : String) : List (String × Nat) :=
  if board = "esp32" then [("SDA", 21), ("SCL", 22)]
  else if board = "arduino_uno" then [("SDA", 18), ("SCL", 19)]
  else if board = "arduino_mega" then [("SDA", 20), ("SCL", 21)]
  else if board = "stm32" then [("SDA", 9), ("SCL", 8)]
  else [("SDA", 21), ("SCL", 22)]

/-- `pin_mapper._find_spi_pins`. -/
def spi_defaults_for (board : String) : List (String × Nat) :=
  if board = "esp32" then [("MOSI", 23), ("MISO", 19), ("SCK", 18), ("CS", 5)]
  else if board = "arduino_uno" then [("MOSI", 11), ("MISO", 12), ("SCK", 13), ("CS", 10)]
  else if board = "arduino_mega" then [("MOSI", 51), ("MISO", 50), ("SCK", 52), ("CS", 53)]
  else if board = "stm32" then [("MOSI", 11), ("MISO", 12), ("SCK", 13), ("CS", 10)]
  else [("MOSI", 23), ("MISO", 19), ("SCK", 18), ("CS", 5)]

/-- `pin_mapper._find_uart_pins`. -/
def uart_defaults_for (board : String) : List (String × Nat) :=
  if board = "esp32" then [("TX", 1), ("RX", 3)]
  else if board = "arduino_uno" then [("TX", 1), ("RX", 0)]
  else if board = "arduino_mega" then [("TX", 1), ("RX", 0)]
  else if board = "stm32" then [("TX", 2), ("RX", 3)]
  else [("TX", 1), ("RX", 3)]

/-- `pin_mapper.IntelligentPinMapper.auto_assign_pins`, with the mutable
`self.pin_usage` dict made an explicit state argument; returns the assigned
role map together with the updated usage state. -/
def auto_assign_pins (usage : PinUsage) (board_type peripheral_type : String) :
    (List (String × Nat)) × PinUsage :=
  let assigned : List (String × Nat) :=
    if peripheral_type = "led" then [("LED", find_best_gpio usage board_type)]
    else if peripheral_type = "dht22" ∨ peripheral_type = "dht11" then
      [("DATA", find_best_gpio usage board_type)]
    else if peripheral_type = "servo" then [("SERVO", find_pwm_pin usage board_type)]
    else if peripheral_type = "i2c" then i2c_defaults_for board_type
    else if peripheral_type = "spi" then spi_defaults_for board_type
    else if peripheral_type = "uart" then uart_defaults_for board_type
    else []
  (assigned, assigned.foldl (fun u rp => usageSet u rp.2 peripheral_type) usage)

/-! Derived views of the validation pass used to state properties. -/

/-- The flattened (component, pin entry) sequence of the input, in the
declaration order traversed by the nested loops of `validate_and_resolve`. -/
def entry_list (conns : List Connection) : List (String × PinEntry) :=
  conns.flatMap (fun c => c.pins.map (fun e => (c.component, e)))

/-- Parsed pin of every entry, in declaration order. -/
def pins_of (es : List (String × PinEntry)) : List Nat :=
  es.map (fun ce => parse_pin_number ce.2.mcu_pin)

/-- Lookup in an insertion-ordered association list (Python `d.get(k)`). -/
def dictGet : List (String × Nat) → String → Option Nat
  | [], _ => none
  | p :: rest, k => if p.1 = k then some p.2 else dictGet rest k

/-- Parsed pin of the last entry of the given component, if any. -/
def last_pin (comp : String) : List (String × PinEntry) → Option Nat
  | [] => none
  | ce :: rest =>
    match last_pin comp rest with
    | some p => some p
    | none => if ce.1 = comp then some (parse_pin_number ce.2.mcu_pin) else none

/-- Number of entries of the list whose value already occurred, counting from
an initial set of already-seen values. -/
def dupCount (seen : List Nat) : List Nat → Nat
  | [] => 0
  | p :: ps => (if p ∈ seen then 1 else 0) + dupCount (seen ++ [p]) ps

/-- Concrete inputs used by the claim theorems. -/
def cfgC1 : List Connection := [⟨"alpha", [⟨"5", "GPIO"⟩]⟩, ⟨"beta", [⟨"5", "GPIO"⟩]⟩]

def cfgC2 : List Connection := [⟨"Servo", [⟨"4", "GPIO"⟩]⟩, ⟨"Servo Motor", [⟨"34", "PWM"⟩]⟩]

def cfgC3 : List Connection := [⟨"Motor", [⟨"34", "PWM"⟩]⟩]

def cfgC4 : List Connection :=
  [⟨"g3", [⟨"3", "GPIO"⟩]⟩, ⟨"g5", [⟨"5", "GPIO"⟩]⟩, ⟨"g6", [⟨"6", "GPIO"⟩]⟩,
   ⟨"g9", [⟨"9", "GPIO"⟩]⟩, ⟨"g10", [⟨"10", "GPIO"⟩]⟩, ⟨"g11", [⟨"11", "GPIO"⟩]⟩,
   ⟨"Motor", [⟨"2", "PWM"⟩]⟩]

def cfgC5 : List Connection := [⟨"X", [⟨"2", "PWM"⟩]⟩]

def cfgC6 : List Connection := [⟨"X", [⟨"abc", "GPIO"⟩]⟩]

def cfgC7 : List Connection :=
  [⟨"alpha", [⟨"99", "GPIO"⟩]⟩, ⟨"beta", [⟨"99", "GPIO"⟩]⟩, ⟨"gamma", [⟨"99", "GPIO"⟩]⟩]

def cfgC8 : List Connection := [⟨"LED", [⟨"2", "GPIO"⟩]⟩, ⟨"Btn", [⟨"4", "GPIO"⟩]⟩]

def cfgC10 : List Connection := [⟨"X", [⟨"5", "GPIO"⟩, ⟨"34", "PWM"⟩]⟩]

def cfgC10w : List Connection := [⟨"X", [⟨"5", "GPIO"⟩]⟩, ⟨"X", [⟨"4", "GPIO"⟩]⟩]

/-! Helper lemmas about the validation pass. -/

lemma validate_pin_shape (spec : BoardSpec) (bt : String) (pin : Nat) (pt comp : String) :
    ∀ i ∈ validate_pin spec bt pin pt comp,
      (i.severity = "critical" ∨ i.severity = "warning") ∧ i.type ≠ "conflict" := by
  intro i hi
  unfold validate_pin at hi
  split at hi
  · simp only [List.mem_singleton] at hi
    subst hi
    exact ⟨Or.inl rfl, by simp⟩
  · simp only [List.append_nil, List.mem_append] at hi
    rcases hi with (hi | hi) | hi <;> split at hi <;>
      simp only [List.mem_singleton, List.not_mem_nil] at hi <;>
      first
        | exact absurd hi (by simp)
        | (subst hi; constructor
           · first | exact Or.inl rfl | exact Or.inr rfl
           · simp)

lemma process_entry_issues (spec : BoardSpec) (bt : String) (st : PassState)
    (comp : String) (e : PinEntry) :
    (process_entry spec bt st comp e).issues =
      st.issues ++ validate_pin spec bt (parse_pin_number e.mcu_pin) e.ptype comp ++
        (if parse_pin_number e.mcu_pin ∈ st.used_pins
          then [conflict_issue (parse_pin_number e.mcu_pin)] else []) := by
  unfold process_entry
  split <;> simp_all

lemma process_entry_used (spec : BoardSpec) (bt : String) (st : PassState)
    (comp : String) (e : PinEntry) :
    (process_entry spec bt st comp e).used_pins =
      st.used_pins ++ [parse_pin_number e.mcu_pin] := rfl

lemma process_entry_resolved (spec : BoardSpec) (bt : String) (st : PassState)
    (comp : String) (e : PinEntry) :
    (process_entry spec bt st comp e).resolved =
      dictSet st.resolved comp (parse_pin_number e.mcu_pin) := rfl

lemma base_pass_from_eq_fold (spec : BoardSpec) (bt : String) :
    ∀ (conns : List Connection) (st : PassState),
      base_pass_from spec bt st conns =
        (entry_list conns).foldl (fun s ce => process_entry spec bt s ce.1 ce.2) st := by
  intro conns
  induction conns with
  | nil => intro st; rfl
  | cons c cs ih =>
      intro st
      unfold base_pass_from at *
      rw [List.foldl_cons]
      rw [ih]
      show _ = (entry_list (c :: cs)).foldl _ st
      have hel : entry_list (c :: cs) =
          c.pins.map (fun e => (c.component, e)) ++ entry_list cs := by
        simp [entry_list]
      rw [hel, List.foldl_append, List.foldl_map]

lemma conflict_count_validate_pin (spec : BoardSpec) (bt : String) (pin : Nat)
    (pt comp : String) :
    (validate_pin spec bt pin pt comp).countP (fun i => i.type == "conflict") = 0 := by
  rw [List.countP_eq_zero]
  intro i hi
  have := (validate_pin_shape spec bt pin pt comp i hi).2
  simpa using this

lemma fold_used_pins (spec : BoardSpec) (bt : String) :
    ∀ (es : List (String × PinEntry)) (st : PassState),
      ((es.foldl (fun s ce => process_entry spec bt s ce.1 ce.2) st).used_pins) =
        st.used_pins ++ pins_of es := by
  intro es
  induction es with
  | nil => intro st; simp [pins_of]
  | cons ce es ih =>
      intro st
      rw [List.foldl_cons, ih, process_entry_used]
      simp [pins_of]

lemma fold_conflict_count (spec : BoardSpec) (bt : String) :
    ∀ (es : List (String × PinEntry)) (st : PassState),
      ((es.foldl (fun s ce => process_entry spec bt s ce.1 ce.2) st).issues.countP
          (fun i => i.type == "conflict")) =
        st.issues.countP (fun i => i.type == "conflict") + dupCount st.used_pins (pins_of es) := by
  intro es
  induction es with
  | nil => intro st; simp [pins_of, dupCount]
  | cons ce es ih =>
      intro st
      rw [List.foldl_cons, ih, process_entry_used, process_entry_issues]
      have hpins : pins_of (ce :: es) =
          parse_pin_number ce.2.mcu_pin :: pins_of es := by simp [pins_of]
      rw [hpins]
      show _ = _ + dupCount st.used_pins (parse_pin_number ce.2.mcu_pin :: pins_of es)
      rw [dupCount]
      rw [List.countP_append, List.countP_append, conflict_count_validate_pin]
      by_cases h : parse_pin_number ce.2.mcu_pin ∈ st.used_pins
      · simp [h, conflict_issue]
        omega
      · simp [h, conflict_issue]

lemma dupCount_add_card (l : List Nat) :
    ∀ seen : List Nat, dupCount seen l + (l.toFinset \ seen.toFinset).card = l.length := by
  induction l with
  | nil => intro seen; simp [dupCount]
  | cons p ps ih =>
      intro seen
      have hseenp : (seen ++ [p]).toFinset = insert p seen.toFinset := by
        ext x
        simp [or_comm]
      rw [dupCount]
      by_cases hp : p ∈ seen
      · have h1 : insert p seen.toFinset = seen.toFinset :=
          Finset.insert_eq_self.2 (List.mem_toFinset.2 hp)
        have h2 : (p :: ps).toFinset \ seen.toFinset = ps.toFinset \ seen.toFinset := by
          rw [List.toFinset_cons]
          exact Finset.insert_sdiff_of_mem _ (List.mem_toFinset.2 hp)
        have := ih (seen ++ [p])
        rw [hseenp, h1] at this
        rw [h2]
        simp only [hp, if_pos, List.length_cons]
        omega
      · have hpf : p ∉ seen.toFinset := fun hc => hp (List.mem_toFinset.1 hc)
        have h2 : (p :: ps).toFinset \ seen.toFinset =
            insert p (ps.toFinset \ insert p seen.toFinset) := by
          ext x
          simp only [List.toFinset_cons, Finset.mem_sdiff, Finset.mem_insert]
          constructor
          · rintro ⟨hx, hxs⟩
            rcases hx with hx | hx
            · exact Or.inl hx
            · by_cases hxp : x = p
              · exact Or.inl hxp
              · exact Or.inr ⟨hx, by tauto⟩
          · rintro (hx | ⟨hx, hxs⟩)
            · subst hx; exact ⟨Or.inl rfl, hpf⟩
            · exact ⟨Or.inr hx, by tauto⟩
        have hnot : p ∉ ps.toFinset \ insert p seen.toFinset := by
          simp
        have := ih (seen ++ [p])
        rw [hseenp] at this
        rw [h2, Finset.card_insert_of_not_mem hnot]
        simp only [hp, if_neg, List.length_cons, not_false_iff]
        omega

/-! Helper lemmas about the association-list embedding of Python dicts. -/

lemma dictGet_append (l1 l2 : List (String × Nat)) (k : String) :
    dictGet (l1 ++ l2) k =
      match dictGet l1 k with
      | some v => some v
      | none => dictGet l2 k := by
  induction l1 with
  | nil => simp [dictGet]
  | cons a rest ih =>
      by_cases h : a.1 = k <;> simp [dictGet, h, ih]

lemma dictGet_map_update (d : List (String × Nat)) (k : String) (v : Nat) (k' : String) :
    dictGet (d.map (fun p => if p.1 = k then (k, v) else p)) k' =
      if k' = k then (if d.any (fun p => decide (p.1 = k)) then some v else none)
      else dictGet d k' := by
  induction d with
  | nil => simp [dictGet]
  | cons a rest ih =>
      simp only [List.map_cons, List.any_cons]
      by_cases hak : a.1 = k
      · by_cases hk : k' = k
        · subst hk
          simp [dictGet, hak]
        · have hkk : ¬k = k' := fun h => hk h.symm
          simp [dictGet, hak, hk, hkk, ih]
      · by_cases hak' : a.1 = k'
        · have hk : ¬k' = k := fun h => hak (hak'.trans h)
          simp [dictGet, hak, hak', hk]
        · rw [if_neg hak]
          have hstep : dictGet (a :: rest.map fun p => if p.1 = k then (k, v) else p) k' =
              dictGet (rest.map fun p => if p.1 = k then (k, v) else p) k' := by
            simp [dictGet, hak']
          rw [hstep, ih]
          by_cases hk : k' = k
          · rw [if_pos hk, if_pos hk]
            simp only [decide_eq_false hak, Bool.false_or]
          · rw [if_neg hk, if_neg hk]
            simp [dictGet, hak']

lemma dictGet_none_of_all_ne (d : List (String × Nat)) (k : String)
    (h : ∀ p ∈ d, ¬p.1 = k) : dictGet d k = none := by
  induction d with
  | nil => rfl
  | cons a rest ih =>
      have h1 : ¬a.1 = k := h a (List.mem_cons_self a rest)
      simp [dictGet, h1, ih (fun p hp => h p (List.mem_cons_of_mem a hp))]

lemma dictSet_get (d : List (String × Nat)) (k : String) (v : Nat) (k' : String) :
    dictGet (dictSet d k v) k' = if k' = k then some v else dictGet d k' := by
  unfold dictSet
  by_cases h : d.any (fun p => decide (p.1 = k))
  · rw [if_pos h, dictGet_map_update, h]
    simp
  · rw [if_neg h, dictGet_append]
    by_cases hk : k' = k
    · subst hk
      have hall : ∀ p ∈ d, ¬p.1 = k' := by
        intro p hp hpk
        exact h (List.any_eq_true.2 ⟨p, hp, by simp [hpk]⟩)
      rw [dictGet_none_of_all_ne d k' hall]
      simp [dictGet]
    · rw [if_neg hk]
      cases hd : dictGet d k' with
      | some v' => rfl
      | none =>
          have hkk : ¬k = k' := fun hx => hk hx.symm
          simp [dictGet, hkk]

lemma dictSet_keys_nodup (d : List (String × Nat)) (k : String) (v : Nat)
    (h : (d.map Prod.fst).Nodup) : ((dictSet d k v).map Prod.fst).Nodup := by
  unfold dictSet
  by_cases ha : d.any (fun p => decide (p.1 = k))
  · rw [if_pos ha]
    have : (d.map (fun p => if p.1 = k then (k, v) else p)).map Prod.fst = d.map Prod.fst := by
      rw [List.map_map]
      refine List.map_congr_left ?_
      intro p _
      simp only [Function.comp_apply]
      by_cases hp : p.1 = k
      · rw [if_pos hp]
        exact hp.symm
      · rw [if_neg hp]
    rw [this]
    exact h
  · rw [if_neg ha]
    have hk : k ∉ d.map Prod.fst := by
      intro hmem
      rcases List.mem_map.1 hmem with ⟨p, hp, hpk⟩
      have : d.any (fun p => decide (p.1 = k)) = true :=
        List.any_eq_true.2 ⟨p, hp, by simp [hpk]⟩
      simp [this] at ha
    simp only [List.map_append, List.map_cons, List.map_nil]
    rw [List.nodup_append]
    refine ⟨h, List.nodup_singleton k, ?_⟩
    intro x hx hxk
    simp only [List.mem_singleton] at hxk
    subst hxk
    exact hk hx

lemma fold_resolved_get (spec : BoardSpec) (bt : String) :
    ∀ (es : List (String × PinEntry)) (st : PassState) (comp : String),
      dictGet ((es.foldl (fun s ce => process_entry spec bt s ce.1 ce.2) st).resolved) comp =
        match last_pin comp es with
        | some p => some p
        | none => dictGet st.resolved comp := by
  intro es
  induction es with
  | nil => intro st comp; simp [last_pin]
  | cons ce es ih =>
      intro st comp
      rw [List.foldl_cons, ih, process_entry_resolved]
      show (match last_pin comp es with
            | some p => some p
            | none => dictGet (dictSet st.resolved ce.1 (parse_pin_number ce.2.mcu_pin)) comp) =
           match last_pin comp (ce :: es) with
           | some p => some p
           | none => dictGet st.resolved comp
      rw [last_pin]
      cases last_pin comp es with
      | some p => rfl
      | none =>
          rw [dictSet_get]
          by_cases hc : ce.1 = comp
          · simp [hc]
          · have : ¬comp = ce.1 := fun h => hc h.symm
            simp [hc, this]

lemma fold_resolved_nodup (spec : BoardSpec) (bt : String) :
    ∀ (es : List (String × PinEntry)) (st : PassState),
      ((st.resolved.map Prod.fst).Nodup) →
      (((es.foldl (fun s ce => process_entry spec bt s ce.1 ce.2) st).resolved.map Prod.fst).Nodup) := by
  intro es
  induction es with
  | nil => intro st h; simpa using h
  | cons ce es ih =>
      intro st h
      rw [List.foldl_cons]
      exact ih _ (by rw [process_entry_resolved]; exact dictSet_keys_nodup _ _ _ h)

lemma fold_issue_severity (spec : BoardSpec) (bt : String) :
    ∀ (es : List (String × PinEntry)) (st : PassState),
      (∀ i ∈ st.issues, i.severity = "critical" ∨ i.severity = "warning") →
      ∀ i ∈ (es.foldl (fun s ce => process_entry spec bt s ce.1 ce.2) st).issues,
        i.severity = "critical" ∨ i.severity = "warning" := by
  intro es
  induction es with
  | nil => intro st h; simpa using h
  | cons ce es ih =>
      intro st h
      rw [List.foldl_cons]
      refine ih _ ?_
      intro i hi
      rw [process_entry_issues] at hi
      rcases List.mem_append.1 hi with hi | hi
      · rcases List.mem_append.1 hi with hi | hi
        · exact h i hi
        · exact (validate_pin_shape spec bt _ _ _ i hi).1
      · split at hi
        · simp only [List.mem_singleton] at hi
          subst hi
          exact Or.inl rfl
        · exact absurd hi (List.not_mem_nil i)

/-- The auto-fix branch of `validate_and_resolve` is skipped exactly when the
validation pass produced no critical issue. -/
lemma resolve_of_no_critical (board_type : String) (conns : List Connection)
    (h : ∀ i ∈ (base_pass (board_specs_get board_type) board_type conns).issues,
        i.severity ≠ "critical") :
    validate_and_resolve board_type conns =
      ((base_pass (board_specs_get board_type) board_type conns).resolved,
       (base_pass (board_specs_get board_type) board_type conns).issues) := by
  unfold validate_and_resolve
  have hany : ((base_pass (board_specs_get board_type) board_type conns).issues.any
      (fun i => i.severity == "critical")) = false := by
    rw [List.any_eq_false]
    intro i hi
    simpa using h i hi
  simp [hany]

lemma base_pass_eq_fold (spec : BoardSpec) (bt : String) (conns : List Connection) :
    base_pass spec bt conns =
      (entry_list conns).foldl (fun s ce => process_entry spec bt s ce.1 ce.2) ⟨[], [], []⟩ :=
  base_pass_from_eq_fold spec bt conns _

lemma firstDigitRun_append_nondigit (a l : List Char)
    (ha : ∀ ch ∈ a, ch.isDigit = false) : firstDigitRun (a ++ l) = firstDigitRun l := by
  induction a with
  | nil => rfl
  | cons c cs ih =>
      have hc : c.isDigit = false := ha c (List.mem_cons_self c cs)
      simp only [List.cons_append, firstDigitRun]
      rw [if_neg (by simp [hc])]
      exact ih (fun ch hch => ha ch (List.mem_cons_of_mem c hch))

lemma takeWhile_all_append (b c : List Char) (hb : ∀ ch ∈ b, ch.isDigit = true) :
    (b ++ c).takeWhile Char.isDigit = b ++ c.takeWhile Char.isDigit := by
  induction b with
  | nil => rfl
  | cons d ds ih =>
      have hd : d.isDigit = true := hb d (List.mem_cons_self d ds)
      simp [List.takeWhile_cons, hd, ih (fun ch hch => hb ch (List.mem_cons_of_mem d hch))]

lemma firstDigitRun_none (l : List Char) (h : ∀ ch ∈ l, ch.isDigit = false) :
    firstDigitRun l = none := by
  induction l with
  | nil => rfl
  | cons c cs ih =>
      have hc := h c (List.mem_cons_self c cs)
      simp only [firstDigitRun]
      rw [if_neg (by simp [hc])]
      exact ih (fun ch hch => h ch (List.mem_cons_of_mem c hch))

/-! Claim theorems. -/

/-- C1: evaluation of the code at the failing input. Components `alpha` and
`beta` both claim pin 5: the validation pass records the duplicate-pin
conflict as a Critical issue, yet `validate_and_resolve` returns both
bindings still sharing pin 5 with an empty issue list — the auto-fix pass
drops `conflict` issues without fixing or reporting them, so the claimed
"conflict eliminated or explicitly reported" property fails. -/
theorem C1_conflict_dropped_silently :
    validate_and_resolve "esp32" cfgC1 = ([("alpha", 5), ("beta", 5)], []) ∧
    (base_pass (board_specs_get "esp32") "esp32" cfgC1).issues.map
        (fun i => (i.type, i.severity)) = [("conflict", "critical")] := by decide

/-- C2: evaluation of the code at the failing input. The only Critical issue
of the validation pass names `Servo Motor`, and `Servo` (pin 4, no issue
against it) is a frozen binding; yet the auto-fix component capture reads
only the first word `Servo` out of the message and reassigns the valid
`Servo` binding from pin 4 to pin 2 — the frozen-binding (no-regression)
property fails on the code. -/
theorem C2_valid_binding_reassigned :
    (base_pass (board_specs_get "esp32") "esp32" cfgC2).issues.map ValidationIssue.message =
      ["Pin 34 not PWM-capable for Servo Motor"] ∧
    dictGet (base_pass (board_specs_get "esp32") "esp32" cfgC2).resolved "Servo" = some 4 ∧
    validate_and_resolve "esp32" cfgC2 = ([("Servo", 2), ("Servo Motor", 34)], []) := by decide

/-- C3: evaluation of the code at the failing input. The PWM binding on
pin 34 is Critical and a free PWM pin (2) exists: the code reassigns the
binding to pin 2 but returns an empty issue list — no Warning recording the
auto-fix (and no suggested pin) is appended, contrary to the claim. -/
theorem C3_fix_applied_without_record :
    (base_pass (board_specs_get "esp32") "esp32" cfgC3).issues.map
        (fun i => (i.type, i.severity)) = [("wrong_capability", "critical")] ∧
    validate_and_resolve "esp32" cfgC3 = ([("Motor", 2)], []) := by decide

/-- C4: evaluation of the code at the failing input. On arduino_uno all six
PWM-capable pins are held by valid GPIO bindings; the PWM binding `Motor` on
pin 2 cannot be repaired, keeps pin 2 (not PWM-capable), and its Critical
issue is dropped, so the returned issue list is empty — a PWM binding with
no unresolved Critical issue ends on a non-PWM pin, refuting capability
satisfaction as claimed. -/
theorem C4_incapable_pin_without_critical :
    validate_and_resolve "arduino_uno" cfgC4 =
      ([("g3", 3), ("g5", 5), ("g6", 6), ("g9", 9), ("g10", 10), ("g11", 11), ("Motor", 2)], []) ∧
    2 ∉ (board_specs_get "arduino_uno").pwm_capable := by decide

/-- C5 counterexample: on the unregistered board `unknown_board_xyz` a PWM
binding on pin 2 resolves with no issue at all (pin 2 is PWM-capable on
esp32), refuting both the claimed generic 0–31 no-capability fallback in
the resolution engine and the claimed unresolved Critical
CapabilityMismatch for PWM bindings on unknown boards. -/
theorem C5_counterexample :
    validate_and_resolve "unknown_board_xyz" cfgC5 = ([("X", 2)], []) := by decide

/-- C5 (amended): for a board identifier with no registered spec, the
resolution engine (`IntelligentHAL`) falls back to the esp32 spec, so
bindings are validated against esp32 capabilities; the generic 0–31
no-capability profile is the fallback only of the pinout-diagram lookup
`get_board_pinout`. -/
theorem C5_unknown_board_uses_esp32_spec :
    board_specs_get "unknown_board_xyz" = esp32_spec ∧
    get_board_pinout "unknown_board_xyz" =
      BoardPinout.generic "unknown_board_xyz" (List.range 32) ∧
    validate_and_resolve "unknown_board_xyz" cfgC5 = validate_and_resolve "esp32" cfgC5 := by
  decide

/-- C6 counterexample: the digitless representation `abc` does not fail — it
parses to pin 0, and the caller on esp32 then reports a reserved-pin
Warning for pin 0, not an InvalidPin issue. -/
theorem C6_counterexample :
    parse_pin_number "abc" = 0 ∧
    (base_pass (board_specs_get "esp32") "esp32" cfgC6).issues.map
        (fun i => (i.type, i.severity)) = [("reserved_pin", "warning")] := by decide

/-- C6 (amended): pin normalization extracts the first contiguous run of
digits of the raw representation as the pin number, and every
representation containing no digits yields pin 0 (no failure), which then
goes through ordinary validation of pin 0. -/
theorem C6_parse_first_digit_run (a b c : List Char)
    (ha : ∀ ch ∈ a, ch.isDigit = false) (hb : b ≠ [])
    (hball : ∀ ch ∈ b, ch.isDigit = true)
    (hc : c = [] ∨ ∃ d cs, c = d :: cs ∧ d.isDigit = false) :
    parse_pin_number (String.mk (a ++ b ++ c)) = digitsToNat b ∧
    (∀ s : String, (∀ ch ∈ s.data, ch.isDigit = false) → parse_pin_number s = 0) := by
  constructor
  · unfold parse_pin_number
    have hdata : (String.mk (a ++ b ++ c)).data = a ++ (b ++ c) := by simp
    rw [hdata, firstDigitRun_append_nondigit a (b ++ c) ha]
    cases b with
    | nil => exact absurd rfl hb
    | cons d ds =>
        have hd : d.isDigit = true := hball d (List.mem_cons_self d ds)
        have hds : ∀ ch ∈ ds, ch.isDigit = true :=
          fun ch hch => hball ch (List.mem_cons_of_mem d hch)
        simp only [List.cons_append, firstDigitRun]
        rw [if_pos hd]
        simp only [List.append_eq]
        have htw : (ds ++ c).takeWhile Char.isDigit = ds ++ c.takeWhile Char.isDigit :=
          takeWhile_all_append ds c hds
        have hcw : c.takeWhile Char.isDigit = [] := by
          rcases hc with rfl | ⟨d2, cs, rfl, hd2⟩
          · rfl
          · simp [List.takeWhile_cons, hd2]
        rw [htw, hcw, List.append_nil]
  · intro s hs
    unfold parse_pin_number
    rw [firstDigitRun_none s.data hs]

/-- C6 witness: concrete instantiation at the representation `GPIO15`. -/
theorem C6_parse_first_digit_run_witness :
    ((∀ ch ∈ ("GPIO".data : List Char), ch.isDigit = false) ∧
     ("15".data ≠ ([] : List Char)) ∧
     (∀ ch ∈ ("15".data : List Char), ch.isDigit = true)) ∧
    (parse_pin_number (String.mk ("GPIO".data ++ "15".data ++ [])) = digitsToNat "15".data ∧
     (∀ s : String, (∀ ch ∈ s.data, ch.isDigit = false) → parse_pin_number s = 0)) :=
  ⟨⟨by decide, by decide, by decide⟩,
   C6_parse_first_digit_run "GPIO".data "15".data []
     (by decide) (by decide) (by decide) (Or.inl rfl)⟩

/-- C7 counterexample: three components all on the invalid pin 99. The
validation pass emits one Critical conflict issue per repeated occurrence
(two for the group of three, not one per group), the conflict message names
the pin but none of the components, and the invalid pin 99 participates in
duplicate detection despite its InvalidPin issues. -/
theorem C7_counterexample :
    (base_pass (board_specs_get "esp32") "esp32" cfgC7).issues.map
        (fun i => (i.type, i.severity)) =
      [("invalid_pin", "critical"), ("invalid_pin", "critical"), ("conflict", "critical"),
       ("invalid_pin", "critical"), ("conflict", "critical")] ∧
    (∀ i ∈ (base_pass (board_specs_get "esp32") "esp32" cfgC7).issues,
      i.type = "conflict" → i.message = "Pin 99 used by multiple components" ∧
        strContains i.message "alpha" = false ∧ strContains i.message "beta" = false ∧
        strContains i.message "gamma" = false) := by decide

/-- C7 (amended): per-binding checks and duplicate detection are interleaved
in one pass over the entries in declaration order; every entry whose pin was
already used yields one Critical conflict issue, so the number of conflict
issues plus the number of distinct parsed pins equals the total number of
entries (a group of k entries sharing a pin yields k−1 issues, and entries
with invalid pins participate). -/
theorem C7_conflict_issue_count (board_type : String) (conns : List Connection) :
    (base_pass (board_specs_get board_type) board_type conns).issues.countP
        (fun i => i.type == "conflict") +
      (pins_of (entry_list conns)).toFinset.card =
    (pins_of (entry_list conns)).length := by
  rw [base_pass_eq_fold, fold_conflict_count]
  have h := dupCount_add_card (pins_of (entry_list conns)) []
  simpa using h

/-- C8: for every input whose validation pass yields no Critical issue,
`validate_and_resolve` returns the validated mapping and issue list
unchanged (the auto-fix pass is skipped) and every returned issue has
severity Warning — resolving an already-valid set is a no-op on pin
values. -/
theorem C8_resolve_valid_is_noop (board_type : String) (conns : List Connection)
    (h : ∀ i ∈ (base_pass (board_specs_get board_type) board_type conns).issues,
        i.severity ≠ "critical") :
    validate_and_resolve board_type conns =
      ((base_pass (board_specs_get board_type) board_type conns).resolved,
       (base_pass (board_specs_get board_type) board_type conns).issues) ∧
    ∀ i ∈ (validate_and_resolve board_type conns).2, i.severity = "warning" := by
  have heq := resolve_of_no_critical board_type conns h
  refine ⟨heq, ?_⟩
  intro i hi
  rw [heq] at hi
  have hi2 : i ∈ ((entry_list conns).foldl
      (fun s ce => process_entry (board_specs_get board_type) board_type s ce.1 ce.2)
      ⟨[], [], []⟩).issues := by
    rw [← base_pass_eq_fold]
    exact hi
  have hsev := fold_issue_severity (board_specs_get board_type) board_type
    (entry_list conns) ⟨[], [], []⟩ (by intro j hj; cases hj) i hi2
  rcases hsev with hcrit | hwarn
  · exact absurd hcrit (h i hi)
  · exact hwarn

/-- C8 witness: a valid two-component esp32 configuration. -/
theorem C8_resolve_valid_is_noop_witness :
    (∀ i ∈ (base_pass (board_specs_get "esp32") "esp32" cfgC8).issues,
        i.severity ≠ "critical") ∧
    (validate_and_resolve "esp32" cfgC8 =
      ((base_pass (board_specs_get "esp32") "esp32" cfgC8).resolved,
       (base_pass (board_specs_get "esp32") "esp32" cfgC8).issues) ∧
     ∀ i ∈ (validate_and_resolve "esp32" cfgC8).2, i.severity = "warning") :=
  ⟨by decide, C8_resolve_valid_is_noop "esp32" cfgC8 (by decide)⟩

/-- C9 counterexample: two sequential invocations of `auto_assign_pins` on
the identical input (board esp32, peripheral led) return different
assignments, because the pin_usage dict retained across calls marks pin 2
used after the first call. -/
theorem C9_counterexample :
    (auto_assign_pins [] "esp32" "led").1 ≠
      (auto_assign_pins (auto_assign_pins [] "esp32" "led").2 "esp32" "led").1 := by decide

/-- C9 (amended): `IntelligentPinMapper.auto_assign_pins` reads and grows
the pin_usage state retained between calls: a fresh mapper assigns LED to
pin 2 and records pin 2 as used, and the identical second call then assigns
pin 4. -/
theorem C9_pin_usage_carries_across_calls :
    auto_assign_pins [] "esp32" "led" = ([("LED", 2)], [(2, "led")]) ∧
    (auto_assign_pins (auto_assign_pins [] "esp32" "led").2 "esp32" "led").1 =
      [("LED", 4)] := by decide

/-- C10 counterexample: component `X` declares pin 5 then pin 34 (PWM);
the last-listed entry parses to pin 34, but the returned mapping binds `X`
to pin 2 because the auto-fix pass reassigns it — the returned entry is not
the last-listed pin whenever the auto-fix pass runs. -/
theorem C10_counterexample :
    dictGet (validate_and_resolve "esp32" cfgC10).1 "X" = some 2 ∧
    last_pin "X" (entry_list cfgC10) = some 34 := by decide

/-- C10 (amended): when the validation pass yields no Critical issue, the
returned mapping has exactly one entry per component (its keys are nodup)
holding the pin of the component's last-listed entry in declaration order,
while every entry's parsed pin — including overwritten earlier pins of the
same component — is tracked in the used-pin set that drives
duplicate-conflict detection. -/
theorem C10_last_entry_wins (board_type : String) (conns : List Connection)
    (h : ∀ i ∈ (base_pass (board_specs_get board_type) board_type conns).issues,
        i.severity ≠ "critical") (comp : String) :
    dictGet (validate_and_resolve board_type conns).1 comp =
      last_pin comp (entry_list conns) ∧
    ((validate_and_resolve board_type conns).1.map Prod.fst).Nodup ∧
    (∀ p : Nat, p ∈ (base_pass (board_specs_get board_type) board_type conns).used_pins ↔
      p ∈ pins_of (entry_list conns)) := by
  have heq := resolve_of_no_critical board_type conns h
  refine ⟨?_, ?_, ?_⟩
  · rw [heq]
    show dictGet (base_pass (board_specs_get board_type) board_type conns).resolved comp = _
    rw [base_pass_eq_fold, fold_resolved_get]
    cases hl : last_pin comp (entry_list conns) with
    | some p => rfl
    | none => rfl
  · rw [heq]
    show ((base_pass (board_specs_get board_type) board_type conns).resolved.map Prod.fst).Nodup
    rw [base_pass_eq_fold]
    exact fold_resolved_nodup _ _ _ _ (by simp)
  · intro p
    rw [base_pass_eq_fold, fold_used_pins]
    simp

/-- C10 witness: component `X` listed twice with distinct valid pins. -/
theorem C10_last_entry_wins_witness :
    (∀ i ∈ (base_pass (board_specs_get "esp32") "esp32" cfgC10w).issues,
        i.severity ≠ "critical") ∧
    (dictGet (validate_and_resolve "esp32" cfgC10w).1 "X" =
      last_pin "X" (entry_list cfgC10w) ∧
     ((validate_and_resolve "esp32" cfgC10w).1.map Prod.fst).Nodup ∧
     (∀ p : Nat, p ∈ (base_pass (board_specs_get "esp32") "esp32" cfgC10w).used_pins ↔
        p ∈ pins_of (entry_list cfgC10w))) :=
  ⟨by decide, C10_last_entry_wins "esp32" cfgC10w (by decide) "X"⟩

end HardcoreAI
